import Mathlib

/-!
Verification development for the promptopia_three repository: a shallow
embedding of the two source files, `stream_main.py` (Streamlit UI with the
turn function `fetch_stock_transactions`) and `main.py` (console script with
the turn coroutine `main`), together with theorems settling the frozen
claims about the single-turn agent-orchestration runner.

Modelling conventions:
* An agent event (`Event`) carries its content parts, the boolean result of
  `is_final_response()`, and the string `str(event)` appended to the log.
* The event stream produced by `runner.run_async` is a finite list of events
  followed by an outcome: normal exhaustion, or an exception raised by the
  next pull (`StreamOutcome.raises`).
* The summary model (`model.generate_content(p).text`) is a function from
  the prompt string to `Except String String`: `.error m` models a raised
  exception with message `m`, `.ok t` a response object whose `.text` is `t`.
* Python exceptions are modelled as `String` messages; a `try` body is a
  function into `Except String _`, the `except` clause is the handler
  matching on it.  Observable side effects that the claims mention (number
  of `aclose` calls, prompts passed to `generate_content`, console prints)
  are threaded explicitly as trace fields.
* `Part.text` is modelled as `String`; the empty string is the falsy value
  for the `if final_response:` truthiness test.
-/

namespace StockApp

/-- A content part (google.genai.types.Part); only its text is relevant. -/
structure Part where
  text : String
deriving DecidableEq, Repr

/-- Content: an ordered sequence of parts (google.genai.types.Content). -/
structure Content where
  parts : List Part
deriving DecidableEq, Repr

/-- An agent event as observed by the two runners: its content, the result
of the `is_final_response()` predicate, and the rendering `str(event)`. -/
structure Event where
  content : Content
  is_final_response : Bool
  str : String
deriving DecidableEq, Repr

/-- What the stream does after yielding its listed events: it either ends
normally (generator exhaustion) or raises an exception on the next pull. -/
inductive StreamOutcome where
  | ends : StreamOutcome
  | raises (msg : String) : StreamOutcome
deriving DecidableEq, Repr

/-- The event stream returned by `runner.run_async`. -/
structure AgentStream where
  events : List Event
  outcome : StreamOutcome
deriving DecidableEq, Repr

/-- The summary model: maps a prompt to the response text, or raises. -/
abbrev GenModel := String → Except String String

/-- The fixed instruction template of the summary call (both files). -/
def prompt_question : String :=
  "Analyze the response and provide insights only in 200 words."

/-- The prompt actually sent to the summary model: the Python f-string
interpolates a single space between the template and the final text. -/
def summaryPrompt (finalText : String) : String :=
  prompt_question ++ " " ++ finalText

namespace StreamMain

/-- How the `async for` loop of `fetch_stock_transactions` exits. -/
inductive LoopExit where
  | found (e : Event) : LoopExit
  | exhausted : LoopExit
  | raised (msg : String) : LoopExit
deriving DecidableEq, Repr

/-- The consumption loop of `fetch_stock_transactions` (stream_main.py
lines 83-87): append `str(event)` to the log, and break at the first event
whose `is_final_response()` holds; if the list is exhausted the stream
outcome decides between normal exhaustion and a raised exception.  Returns
the recorded log and the way the loop exited. -/
def consume : List Event → StreamOutcome → List String × LoopExit
  | [], .ends => ([], .exhausted)
  | [], .raises m => ([], .raised m)
  | e :: rest, out =>
    if e.is_final_response then
      ([e.str], .found e)
    else
      let r := consume rest out
      (e.str :: r.1, r.2)

/-- Observable side effects of one call to `fetch_stock_transactions` that
the claims mention: how many times `agent_stream.aclose()` was called and
which prompts were passed to `model.generate_content`. -/
structure Trace where
  closeCount : Nat
  summaryPrompts : List String
deriving DecidableEq, Repr

/-- The value returned by `fetch_stock_transactions`:
`(final_response, insights, events)`. -/
structure FetchReturn where
  final_response : Option String
  insights : Option String
  events : List String
deriving DecidableEq, Repr

/-- Result of a call: its effect trace plus its return value. -/
structure FetchResult where
  trace : Trace
  ret : FetchReturn
deriving DecidableEq, Repr

/-- The body of the `try:` block of `fetch_stock_transactions`
(stream_main.py lines 65-99), as a fallible computation: consume the stream
until the first final event, extract `event.content.parts[0].text` (an
IndexError if the final event has no parts), call the summary model exactly
when the extracted text is truthy (non-empty), then `await
agent_stream.aclose()` (whose own failure is the `acloseErr` argument), and
return `(final_response, insights, events)`.  The session creation on lines
67-71 binds a value the body never uses and is not modelled.  `.error m`
models an exception with message `m` escaping the body. -/
def fetchBody (model : GenModel) (stream : AgentStream) (acloseErr : Option String) :
    Trace × Except String FetchReturn :=
  let c := consume stream.events stream.outcome
  match c.2 with
  | .raised m => (⟨0, []⟩, .error m)
  | .exhausted =>
    match acloseErr with
    | some m => (⟨1, []⟩, .error m)
    | none => (⟨1, []⟩, .ok ⟨none, none, c.1⟩)
  | .found e =>
    match e.content.parts.head? with
    | none => (⟨0, []⟩, .error "list index out of range")
    | some p =>
      if p.text = "" then
        match acloseErr with
        | some m => (⟨1, []⟩, .error m)
        | none => (⟨1, []⟩, .ok ⟨some p.text, none, c.1⟩)
      else
        let pr := summaryPrompt p.text
        match model pr with
        | .error m => (⟨0, [pr]⟩, .error m)
        | .ok t =>
          match acloseErr with
          | some m => (⟨1, [pr]⟩, .error m)
          | none => (⟨1, [pr]⟩, .ok ⟨some p.text, some t, c.1⟩)

/-- `fetch_stock_transactions` (stream_main.py lines 61-102): the try body
wrapped in the `except Exception` handler, which returns
`(None, None, ["Error: " + str(e)])`, discarding the recorded events. -/
def fetch_stock_transactions (model : GenModel) (stream : AgentStream)
    (acloseErr : Option String) : FetchResult :=
  let b := fetchBody model stream acloseErr
  match b.2 with
  | .ok r => ⟨b.1, r⟩
  | .error m => ⟨b.1, ⟨none, none, ["Error: " ++ m]⟩⟩

end StreamMain

namespace MainPy

/-- What the loop body of main.py lines 59-66 accumulates before the
`except`/`finally` clauses run: the `str(event)` prints, the final-text
prints, the prompts sent to `model.generate_content`, the `response.text`
prints, and the exception (if any) that aborted the loop. -/
structure LoopOut where
  printedEvents : List String
  printedFinals : List String
  summaryPrompts : List String
  printedResponses : List String
  exc : Option String
deriving DecidableEq, Repr

/-- The `async for` loop of main.py (lines 59-66).  Every event is printed;
at every event whose `is_final_response()` holds (there is no `break`), the
first part text is printed and the summary model is called on it, whatever
the text is.  An IndexError on `parts[0]`, an exception from the summary
call, or an exception raised by the stream aborts the loop with that
exception. -/
def mainLoop (model : GenModel) : List Event → StreamOutcome → LoopOut
  | [], .ends => ⟨[], [], [], [], none⟩
  | [], .raises m => ⟨[], [], [], [], some m⟩
  | e :: rest, out =>
    if e.is_final_response then
      match e.content.parts.head? with
      | none => ⟨[e.str], [], [], [], some "list index out of range"⟩
      | some p =>
        let pr := summaryPrompt p.text
        match model pr with
        | .error m => ⟨[e.str], [p.text], [pr], [], some m⟩
        | .ok t =>
          let r := mainLoop model rest out
          ⟨e.str :: r.printedEvents, p.text :: r.printedFinals,
           pr :: r.summaryPrompts, t :: r.printedResponses, r.exc⟩
    else
      let r := mainLoop model rest out
      ⟨e.str :: r.printedEvents, r.printedFinals, r.summaryPrompts,
       r.printedResponses, r.exc⟩

/-- Observable behaviour of one run of main.py `main()` (lines 45-71). -/
structure MainTrace where
  printedEvents : List String
  printedFinals : List String
  summaryPrompts : List String
  printedResponses : List String
  errorPrints : List String
  closeCount : Nat
deriving DecidableEq, Repr

/-- `main()` of main.py (lines 45-71): run the loop inside `try`; the
`except` clause prints the error; the `finally` clause always calls
`await agent_stream.aclose()` exactly once.  The session creation and
runner construction (lines 46-53) are not modelled: their results feed the
stream given as argument. -/
def main (model : GenModel) (stream : AgentStream) : MainTrace :=
  let r := mainLoop model stream.events stream.outcome
  { printedEvents := r.printedEvents
    printedFinals := r.printedFinals
    summaryPrompts := r.summaryPrompts
    printedResponses := r.printedResponses
    errorPrints :=
      match r.exc with
      | some m => ["⚠️ Error during agent stream: " ++ m]
      | none => []
    closeCount := 1 }

end MainPy

/-! Closed-form descriptions of the two loops, used to state the claims.
They are derived from the source structure and related to the loop
definitions by the lemmas below. -/

/-- The first event of the list satisfying `is_final_response`. -/
def firstFinal? : List Event → Option Event
  | [] => none
  | e :: rest => if e.is_final_response then some e else firstFinal? rest

/-- The prefix of the stream up to and including the first final event
(the whole list when no event is final). -/
def takeThroughFinal : List Event → List Event
  | [] => []
  | e :: rest => if e.is_final_response then [e] else e :: takeThroughFinal rest

namespace StreamMain

/-- Whether an exception is raised in the try body of
`fetch_stock_transactions` strictly before the `aclose()` call on line 97:
by the stream before any final event, by the `parts[0]` access of a final
event without parts, or by the summary call. -/
def raisesBeforeClose (model : GenModel) (evs : List Event) (out : StreamOutcome) : Bool :=
  match firstFinal? evs with
  | none =>
    match out with
    | .raises _ => true
    | .ends => false
  | some e =>
    match e.content.parts.head? with
    | none => true
    | some p =>
      if p.text = "" then false
      else
        match model (summaryPrompt p.text) with
        | .error _ => true
        | .ok _ => false

/-- The first exception (message) raised anywhere in the try body of
`fetch_stock_transactions`, `aclose()` included, or `none` when the body
completes without an exception. -/
def fetchExc (model : GenModel) (evs : List Event) (out : StreamOutcome)
    (acloseErr : Option String) : Option String :=
  match firstFinal? evs with
  | none =>
    match out with
    | .raises m => some m
    | .ends => acloseErr
  | some e =>
    match e.content.parts.head? with
    | none => some "list index out of range"
    | some p =>
      if p.text = "" then acloseErr
      else
        match model (summaryPrompt p.text) with
        | .error m => some m
        | .ok _ => acloseErr

/-- The summary prompts a call to `fetch_stock_transactions` issues: one
call, on the first final event, exactly when its first part text is
non-empty; none otherwise. -/
def fetchSummaryCalls (evs : List Event) : List String :=
  match firstFinal? evs with
  | none => []
  | some e =>
    match e.content.parts.head? with
    | none => []
    | some p => if p.text = "" then [] else [summaryPrompt p.text]

end StreamMain

namespace MainPy

/-- The events that the loop of main.py consumes: all of them, in order,
up to stream exhaustion, except that a final event whose processing raises
(no parts, or summary error) is the last one consumed. -/
def mainConsumed (model : GenModel) : List Event → List Event
  | [] => []
  | e :: rest =>
    if e.is_final_response then
      match e.content.parts.head? with
      | none => [e]
      | some p =>
        match model (summaryPrompt p.text) with
        | .error _ => [e]
        | .ok _ => e :: mainConsumed model rest
    else e :: mainConsumed model rest

/-- The summary prompts main.py issues: one per final event it reaches,
whatever the final text is (also when it is empty). -/
def mainSummaryCalls (model : GenModel) : List Event → List String
  | [] => []
  | e :: rest =>
    if e.is_final_response then
      match e.content.parts.head? with
      | none => []
      | some p =>
        match model (summaryPrompt p.text) with
        | .error _ => [summaryPrompt p.text]
        | .ok _ => summaryPrompt p.text :: mainSummaryCalls model rest
    else mainSummaryCalls model rest

end MainPy

/-! Startup and initialization: the credential read and component
construction of both files. -/

/-- The process environment, as read by `os.environ`. -/
abbrev Env := String → Option String

/-- The static configuration of the LlmAgent defined identically in both
files (stream_main.py lines 35-50, main.py lines 24-39). -/
structure AgentConfig where
  name : String
  model : String
  description : String
  instruction : String
  tools : List String
  output_key : String
deriving DecidableEq, Repr

/-- The MCP toolset endpoint URL (both files). -/
def mcp_url : String := "http://localhost:8080/mcp/stream"

/-- The root agent configuration (both files). -/
def root_agent : AgentConfig :=
  { name := "fetch_stock_transactions_agent"
    model := "gemini-2.0-flash"
    description := "Agent for accessing all stock transactions from accounts connected to the Fi Money app. Use cases: Retrieve all stock transactions, including ISIN as identifier, transaction type (Buy, Sell, Dividend), transaction date, and NAV value of each transaction. Data is sourced directly from user-linked accounts in Fi Money."
    instruction := "Assist the user in accessing their stock transactions from accounts connected to the Fi Money app. Provide details such as ISIN, transaction type (Buy, Sell, Dividend), transaction date, and NAV value. Only use the fetch_stock_transactions tool and do not estimate or fabricate data. Return only actual data available from Fi Money."
    tools := [mcp_url]
    output_key := "last_result" }

namespace StreamMain

/-- What `initialize_components` of stream_main.py returns, together with
the `st.error` messages it showed.  Components are represented by their
configuration: the GenerativeModel by its model id, the session service by
a unit token, the toolset by its endpoint URL. -/
structure InitResult where
  model : Option String
  agent : Option AgentConfig
  session_service : Option Unit
  toolset : Option String
  errors : List String
deriving DecidableEq, Repr

/-- `initialize_components` (stream_main.py lines 16-59): read
`GEMINI_API_KEY` with `os.environ.get`; when absent, show an `st.error` and
return `(None, None, None, None)`; otherwise construct the model, toolset,
agent and session service and return them. -/
def initialize_components (env : Env) : InitResult :=
  match env "GEMINI_API_KEY" with
  | none =>
    { model := none, agent := none, session_service := none, toolset := none
      errors := ["GEMINI_API_KEY not found in environment variables"] }
  | some _ =>
    { model := some "gemini-1.5-pro", agent := some root_agent
      session_service := some (), toolset := some mcp_url, errors := [] }

/-- The gate in `main()` of stream_main.py (lines 133-150): the request
form is shown only when `all([model, agent, session_service, toolset])`
holds, i.e. when every component returned by `initialize_components` is
present (each constructed component object is truthy). -/
def main_shows_form (env : Env) : Bool :=
  let c := initialize_components env
  c.model.isSome && c.agent.isSome && c.session_service.isSome && c.toolset.isSome

end StreamMain

namespace MainPy

/-- The credential read at the top of main.py (line 12):
`os.environ["GEMINI_API_KEY"]` raises a KeyError when the key is absent,
which nothing in the script catches. -/
def google_api_key (env : Env) : Except String String :=
  match env "GEMINI_API_KEY" with
  | some v => Except.ok v
  | none => Except.error "KeyError: GEMINI_API_KEY"

end MainPy

/-! The session service.  Modelled from the spec: `InMemorySessionService`
(google.adk.sessions) is external library code not present in this
repository; only its call sites are (stream_main.py lines 67-71, main.py
lines 46-50).  Per the spec, SessionStore holds session records keyed by
the (application, user, session) triple, and `create_or_get` looks up or
creates a session, idempotent on the triple: a given triple always
resolves to the same underlying state object within a process lifetime. -/

/-- A session: its identifier triple and its mutable key-value state. -/
structure Session where
  app_name : String
  user_id : String
  id : String
  state : List (String × String)
deriving DecidableEq, Repr

/-- The identifier triple. -/
abbrev Triple := String × String × String

/-- Modelled from the spec: the in-process session store, a finite map
from identifier triples to sessions. -/
structure SessionStore where
  sessions : List (Triple × Session)
deriving DecidableEq, Repr

/-- Modelled from the spec: `create_or_get` returns the existing session
of the triple when there is one, and otherwise creates a fresh session
with empty state, records it, and returns it. -/
def create_or_get (store : SessionStore) (app user sid : String) :
    Session × SessionStore :=
  match store.sessions.find? (fun kv => decide (kv.1 = (app, user, sid))) with
  | some kv => (kv.2, store)
  | none =>
    let s : Session := ⟨app, user, sid, []⟩
    (s, ⟨((app, user, sid), s) :: store.sessions⟩)

/-- A state mutation on the session of the given triple: prepend the
key-value pair to its state mapping (other sessions unchanged). -/
def setState (store : SessionStore) (app user sid k v : String) : SessionStore :=
  ⟨store.sessions.map (fun kv =>
    if kv.1 = (app, user, sid) then
      (kv.1, { kv.2 with state := (k, v) :: kv.2.state })
    else kv)⟩

/-- The fixed identifier triple both files use for every turn
(stream_main.py line 63, main.py line 42). -/
def app_name : String := "stock_transaction_app"

/-- The fixed user id. -/
def user_id : String := "user1"

/-- The fixed session id. -/
def session_id : String := "session1"

/-! Concrete fixtures used to evaluate the definitions at explicit inputs. -/

/-- Fixture: a summary model that always answers with text INSIGHTS. -/
def okModel : GenModel := fun _ => Except.ok "INSIGHTS"

/-- Fixture: a summary model that always raises with message boom. -/
def errModel : GenModel := fun _ => Except.error "boom"

/-- Fixture: an intermediate (non-final) event. -/
def evMid : Event := ⟨⟨[]⟩, false, "E-mid"⟩

/-- Fixture: a final event whose first part text is DATA. -/
def evFinalData : Event := ⟨⟨[⟨"DATA"⟩]⟩, true, "E-final"⟩

/-- Fixture: a final event whose first part text is the empty string. -/
def evFinalEmpty : Event := ⟨⟨[⟨""⟩]⟩, true, "E-empty"⟩

/-- Fixture: an event emitted after the final event of a stream. -/
def evAfter : Event := ⟨⟨[]⟩, false, "E-after"⟩

/-- Fixture: an environment in which no variable is set. -/
def emptyEnv : Env := fun _ => none

/-! Helper lemmas relating the loop definitions to their closed forms. -/

namespace StreamMain

/-- The consumption loop of fetch_stock_transactions records exactly the
stream prefix through the first final event, and exits found on the first
final event, exhausted or raised according to the outcome otherwise. -/
theorem consume_eq (evs : List Event) (out : StreamOutcome) :
    consume evs out =
      ((takeThroughFinal evs).map Event.str,
        match firstFinal? evs with
        | some e => LoopExit.found e
        | none =>
          match out with
          | .ends => LoopExit.exhausted
          | .raises m => LoopExit.raised m) := by
  induction evs with
  | nil => cases out <;> rfl
  | cons e rest ih =>
    cases h : e.is_final_response with
    | true => simp [consume, takeThroughFinal, firstFinal?, h]
    | false => simp [consume, takeThroughFinal, firstFinal?, h, ih]

/-- Normal form of fetch_stock_transactions: case analysis on the first
final event, its first part, the truthiness of the part text, the summary
model outcome, and the aclose outcome. -/
theorem fetch_eq (model : GenModel) (evs : List Event) (out : StreamOutcome)
    (acl : Option String) :
    fetch_stock_transactions model ⟨evs, out⟩ acl =
      (match firstFinal? evs with
      | none =>
        match out with
        | .raises m => ⟨⟨0, []⟩, ⟨none, none, ["Error: " ++ m]⟩⟩
        | .ends =>
          match acl with
          | some m => ⟨⟨1, []⟩, ⟨none, none, ["Error: " ++ m]⟩⟩
          | none => ⟨⟨1, []⟩, ⟨none, none, (takeThroughFinal evs).map Event.str⟩⟩
      | some e =>
        match e.content.parts.head? with
        | none => ⟨⟨0, []⟩, ⟨none, none, ["Error: list index out of range"]⟩⟩
        | some p =>
          if p.text = "" then
            match acl with
            | some m => ⟨⟨1, []⟩, ⟨none, none, ["Error: " ++ m]⟩⟩
            | none => ⟨⟨1, []⟩, ⟨some p.text, none, (takeThroughFinal evs).map Event.str⟩⟩
          else
            match model (summaryPrompt p.text) with
            | .error m => ⟨⟨0, [summaryPrompt p.text]⟩, ⟨none, none, ["Error: " ++ m]⟩⟩
            | .ok t =>
              match acl with
              | some m => ⟨⟨1, [summaryPrompt p.text]⟩, ⟨none, none, ["Error: " ++ m]⟩⟩
              | none =>
                ⟨⟨1, [summaryPrompt p.text]⟩,
                 ⟨some p.text, some t, (takeThroughFinal evs).map Event.str⟩⟩ :
        FetchResult) := by
  unfold fetch_stock_transactions fetchBody
  rw [consume_eq]
  cases hf : firstFinal? evs with
  | none => cases out <;> cases acl <;> simp
  | some e =>
    cases hp : e.content.parts.head? with
    | none => simp [hp]
    | some p =>
      by_cases ht : p.text = ""
      · cases acl <;> simp [hp, ht]
      · cases hm : model (summaryPrompt p.text) <;> cases acl <;> simp [hp, ht, hm]

end StreamMain

namespace MainPy

/-- The events printed by the loop of main.py are exactly the consumed
events, in emission order. -/
theorem mainLoop_printedEvents (model : GenModel) (evs : List Event)
    (out : StreamOutcome) :
    (mainLoop model evs out).printedEvents = (mainConsumed model evs).map Event.str := by
  induction evs with
  | nil => cases out <;> rfl
  | cons e rest ih =>
    cases h : e.is_final_response with
    | false => simp [mainLoop, mainConsumed, h, ih]
    | true =>
      cases hp : e.content.parts.head? with
      | none => simp [mainLoop, mainConsumed, h, hp]
      | some p =>
        cases hm : model (summaryPrompt p.text) with
        | error m => simp [mainLoop, mainConsumed, h, hp, hm]
        | ok t => simp [mainLoop, mainConsumed, h, hp, hm, ih]

/-- The summary prompts issued by the loop of main.py are exactly one per
final event reached, in order. -/
theorem mainLoop_summaryPrompts (model : GenModel) (evs : List Event)
    (out : StreamOutcome) :
    (mainLoop model evs out).summaryPrompts = mainSummaryCalls model evs := by
  induction evs with
  | nil => cases out <;> rfl
  | cons e rest ih =>
    cases h : e.is_final_response with
    | false => simp [mainLoop, mainSummaryCalls, h, ih]
    | true =>
      cases hp : e.content.parts.head? with
      | none => simp [mainLoop, mainSummaryCalls, h, hp]
      | some p =>
        cases hm : model (summaryPrompt p.text) with
        | error m => simp [mainLoop, mainSummaryCalls, h, hp, hm]
        | ok t => simp [mainLoop, mainSummaryCalls, h, hp, hm, ih]

end MainPy

/-- The prefix through the first final event is an order-preserving
selection (a sublist) of the stream. -/
theorem takeThroughFinal_sublist (evs : List Event) :
    List.Sublist (takeThroughFinal evs) evs := by
  induction evs with
  | nil => simp [takeThroughFinal]
  | cons e rest ih =>
    cases h : e.is_final_response with
    | true =>
      simp only [takeThroughFinal, h, if_pos]
      exact (List.nil_sublist rest).cons₂ e
    | false =>
      simp only [takeThroughFinal, h]
      exact ih.cons₂ e

/-- When the stream has a final event, the recorded prefix ends with the
first final event. -/
theorem takeThroughFinal_getLast? (evs : List Event) (e : Event)
    (h : firstFinal? evs = some e) :
    (takeThroughFinal evs).getLast? = some e := by
  induction evs with
  | nil => simp [firstFinal?] at h
  | cons a rest ih =>
    cases ha : a.is_final_response with
    | true =>
      simp [firstFinal?, ha] at h
      subst h
      simp [takeThroughFinal, ha]
    | false =>
      simp only [firstFinal?, ha, Bool.false_eq_true, if_neg, if_false] at h
      have := ih h
      simp only [takeThroughFinal, ha, Bool.false_eq_true, if_false]
      rw [List.getLast?_cons, this]
      cases hr : takeThroughFinal rest with
      | nil => rw [hr] at this; simp at this
      | cons b l => simp

/-- After create_or_get, the store maps the triple to the returned
session. -/
theorem find?_create_or_get (store : SessionStore) (app user sid : String) :
    (create_or_get store app user sid).2.sessions.find?
        (fun kv => decide (kv.1 = (app, user, sid))) =
      some ((app, user, sid), (create_or_get store app user sid).1) := by
  unfold create_or_get
  cases hf : store.sessions.find? (fun kv => decide (kv.1 = (app, user, sid))) with
  | none => simp
  | some kv =>
    obtain ⟨k, s⟩ := kv
    have h : k = (app, user, sid) := by
      have := List.find?_some hf
      simpa using this
    subst h
    simpa using hf

/-- When the store already maps the triple to a session, create_or_get
returns that session and leaves the store unchanged. -/
theorem create_or_get_of_find? (store : SessionStore) (app user sid : String)
    (s : Session)
    (h : store.sessions.find? (fun kv => decide (kv.1 = (app, user, sid))) =
      some ((app, user, sid), s)) :
    create_or_get store app user sid = (s, store) := by
  unfold create_or_get
  rw [h]

/-- Updating every entry of the given triple commutes with the lookup. -/
theorem find?_map_upd (l : List (Triple × Session)) (t : Triple) (k v : String) :
    (l.map (fun kv =>
        if kv.1 = t then (kv.1, { kv.2 with state := (k, v) :: kv.2.state })
        else kv)).find? (fun kv => decide (kv.1 = t)) =
      (l.find? (fun kv => decide (kv.1 = t))).map
        (fun kv => (kv.1, { kv.2 with state := (k, v) :: kv.2.state })) := by
  induction l with
  | nil => rfl
  | cons a rest ih =>
    by_cases ha : a.1 = t
    · simp [List.find?, ha, ih]
    · simp [List.find?, ha, ih]

/-! The claims. -/

/-- Claim C1 (corrected): main.py closes the agent stream exactly once on
every exit path via its finally clause.  fetch_stock_transactions in
stream_main.py closes the stream exactly once only on the exception-free
paths (final event found, or stream exhausted), and zero times when an
exception is raised before reaching the close call on line 97 (raised by
the stream, by the part access of a final event without parts, or by the
summary call), because that close call sits inside the try block rather
than in a finally clause. -/
theorem C1_stream_close_discipline :
    (∀ (model : GenModel) (stream : AgentStream),
        (MainPy.main model stream).closeCount = 1) ∧
    (∀ (model : GenModel) (evs : List Event) (out : StreamOutcome) (acl : Option String),
        (StreamMain.fetch_stock_transactions model ⟨evs, out⟩ acl).trace.closeCount =
          if StreamMain.raisesBeforeClose model evs out then 0 else 1) := by
  refine ⟨fun model stream => rfl, fun model evs out acl => ?_⟩
  rw [StreamMain.fetch_eq]
  unfold StreamMain.raisesBeforeClose
  cases hf : firstFinal? evs with
  | none => cases out <;> cases acl <;> simp
  | some e =>
    cases hp : e.content.parts.head? with
    | none => simp [hp]
    | some p =>
      by_cases ht : p.text = ""
      · cases acl <;> simp [hp, ht]
      · cases hm : model (summaryPrompt p.text) <;> cases acl <;> simp [hp, ht, hm]

/-- Counterexample to claim C1 as stated: at a stream that raises during
consumption, fetch_stock_transactions exits through its except clause
without ever calling aclose, so the stream is not closed exactly once on
that exit path (the close count is 0, not 1). -/
theorem C1_not_closed_on_exception :
    ¬ (StreamMain.fetch_stock_transactions okModel
        ⟨[evMid], .raises "boom"⟩ none).trace.closeCount = 1 := by decide

/-- Claim C2 (corrected): fetch_stock_transactions consumes events in
emission order and stops at the first final event, so its recorded log is
exactly the stream prefix through the first final event.  main.py also
consumes in emission order but, having no break statement, does not stop
at the first terminal event: it consumes every event up to stream
exhaustion (or up to the event whose processing raises), processing every
terminal event it reaches. -/
theorem C2_consumption_order :
    (∀ (evs : List Event) (out : StreamOutcome),
        (StreamMain.consume evs out).1 = (takeThroughFinal evs).map Event.str) ∧
    (∀ (model : GenModel) (evs : List Event) (out : StreamOutcome),
        (MainPy.main model ⟨evs, out⟩).printedEvents =
          (MainPy.mainConsumed model evs).map Event.str) := by
  refine ⟨fun evs out => ?_, fun model evs out => ?_⟩
  · rw [StreamMain.consume_eq]
  · exact MainPy.mainLoop_printedEvents model evs out

/-- Counterexample to claim C2 as stated: with a stream that emits one
more event after the terminal one, main.py consumes and records both, so
an event after the first terminal event is consumed. -/
theorem C2_main_consumes_past_final :
    (MainPy.main okModel ⟨[evFinalData, evAfter], .ends⟩).printedEvents =
      ["E-final", "E-after"] ∧
    (MainPy.main okModel ⟨[evFinalData, evAfter], .ends⟩).printedEvents ≠
      ["E-final"] := by
  exact ⟨rfl, by decide⟩

/-- Claim C3 (corrected): every call of fetch_stock_transactions returns
to the caller (exceptions never propagate past the turn boundary), and
the return is one of: the first-part text of the terminal event, which
may be empty rather than necessarily non-empty, together with the ordered
event log; None together with the ordered event log and no logged reason,
when the stream is exhausted without a final event; or None together with
a single logged Error reason, when an exception occurred. -/
theorem C3_turn_result_containment :
    ∀ (model : GenModel) (evs : List Event) (out : StreamOutcome) (acl : Option String),
      (∃ t, (StreamMain.fetch_stock_transactions model ⟨evs, out⟩ acl).ret.final_response =
          some t ∧
        (StreamMain.fetch_stock_transactions model ⟨evs, out⟩ acl).ret.events =
          (takeThroughFinal evs).map Event.str) ∨
      ((StreamMain.fetch_stock_transactions model ⟨evs, out⟩ acl).ret.final_response = none ∧
        (StreamMain.fetch_stock_transactions model ⟨evs, out⟩ acl).ret.events =
          (takeThroughFinal evs).map Event.str) ∨
      (∃ m, (StreamMain.fetch_stock_transactions model ⟨evs, out⟩ acl).ret =
        ⟨none, none, ["Error: " ++ m]⟩) := by
  intro model evs out acl
  rw [StreamMain.fetch_eq]
  cases hf : firstFinal? evs with
  | none =>
    cases out with
    | ends =>
      cases acl with
      | none => exact Or.inr (Or.inl ⟨rfl, rfl⟩)
      | some m => exact Or.inr (Or.inr ⟨m, rfl⟩)
    | raises m => exact Or.inr (Or.inr ⟨m, rfl⟩)
  | some e =>
    dsimp only
    cases hp : e.content.parts.head? with
    | none => exact Or.inr (Or.inr ⟨"list index out of range", rfl⟩)
    | some p =>
      dsimp only
      by_cases ht : p.text = ""
      · rw [if_pos ht]
        cases acl with
        | none => exact Or.inl ⟨p.text, rfl, rfl⟩
        | some m => exact Or.inr (Or.inr ⟨m, rfl⟩)
      · rw [if_neg ht]
        cases hm : model (summaryPrompt p.text) with
        | error m => exact Or.inr (Or.inr ⟨m, rfl⟩)
        | ok t =>
          cases acl with
          | none => exact Or.inl ⟨p.text, rfl, rfl⟩
          | some m => exact Or.inr (Or.inr ⟨m, rfl⟩)

/-- Counterexample to claim C3 as stated: at a stream whose terminal event
carries an empty first-part text, the turn returns the empty string as the
final text, which is neither a non-empty final text nor an absent (None)
result. -/
theorem C3_empty_final_text :
    (StreamMain.fetch_stock_transactions okModel
        ⟨[evFinalEmpty], .ends⟩ none).ret.final_response = some "" ∧
    (some "" : Option String) ≠ none := by
  exact ⟨rfl, by decide⟩

/-- Claim C4 (corrected): when GEMINI_API_KEY is absent from the
environment, initialize_components in stream_main.py reports the
configuration error with st.error and returns all four components absent,
and the UI gate does not show the request form; but main.py reads the key
with a bare indexing of os.environ, which raises an uncaught KeyError at
startup: main.py crashes instead of reporting. -/
theorem C4_missing_credential :
    ∀ (env : Env), env "GEMINI_API_KEY" = none →
      StreamMain.initialize_components env =
        ⟨none, none, none, none, ["GEMINI_API_KEY not found in environment variables"]⟩ ∧
      StreamMain.main_shows_form env = false ∧
      MainPy.google_api_key env = Except.error "KeyError: GEMINI_API_KEY" := by
  intro env h
  refine ⟨?_, ?_, ?_⟩ <;>
    simp [StreamMain.initialize_components, StreamMain.main_shows_form,
      MainPy.google_api_key, h]

/-- Witness for claim C4: the theorem applied at the empty environment. -/
theorem C4_missing_credential_witness :
    StreamMain.initialize_components emptyEnv =
      ⟨none, none, none, none, ["GEMINI_API_KEY not found in environment variables"]⟩ ∧
    StreamMain.main_shows_form emptyEnv = false ∧
    MainPy.google_api_key emptyEnv = Except.error "KeyError: GEMINI_API_KEY" :=
  C4_missing_credential emptyEnv rfl

/-- Counterexample to claim C4 as stated: with the credential absent, the
startup credential read of main.py raises a KeyError that nothing in the
script catches (modelled as the error outcome): a crash, not a reported
configuration error. -/
theorem C4_main_py_crashes :
    MainPy.google_api_key emptyEnv = Except.error "KeyError: GEMINI_API_KEY" := by rfl

/-- Claim C5 (corrected): fetch_stock_transactions invokes the summary
model exactly once when the extracted final text is non-empty and not at
all otherwise, as the closed form fetchSummaryCalls states; but main.py
invokes the summary model at every terminal event it reaches regardless
of the text, also when the final text is empty, as the closed form
mainSummaryCalls states. -/
theorem C5_summary_invocation :
    (∀ (model : GenModel) (evs : List Event) (out : StreamOutcome) (acl : Option String),
        (StreamMain.fetch_stock_transactions model ⟨evs, out⟩ acl).trace.summaryPrompts =
          StreamMain.fetchSummaryCalls evs) ∧
    (∀ (model : GenModel) (evs : List Event) (out : StreamOutcome),
        (MainPy.main model ⟨evs, out⟩).summaryPrompts =
          MainPy.mainSummaryCalls model evs) := by
  constructor
  · intro model evs out acl
    rw [StreamMain.fetch_eq]
    unfold StreamMain.fetchSummaryCalls
    cases hf : firstFinal? evs with
    | none => cases out <;> cases acl <;> rfl
    | some e =>
      cases hp : e.content.parts.head? with
      | none => simp [hp]
      | some p =>
        by_cases ht : p.text = ""
        · cases acl <;> simp [hp, ht]
        · cases hm : model (summaryPrompt p.text) <;> cases acl <;> simp [hp, ht, hm]
  · intro model evs out
    exact MainPy.mainLoop_summaryPrompts model evs out

/-- Counterexample to claim C5 as stated: at a stream whose terminal
event carries an empty final text, main.py still makes a summary call
(the prompt is the template followed by a space and the empty text). -/
theorem C5_summary_on_empty_text :
    (MainPy.main okModel ⟨[evFinalEmpty], .ends⟩).summaryPrompts = [summaryPrompt ""] ∧
    (MainPy.main okModel ⟨[evFinalEmpty], .ends⟩).summaryPrompts ≠ [] := by
  exact ⟨rfl, by decide⟩

/-- Claim C6 (corrected): an error raised by the summary model call does
not propagate past the turn, but it is caught by the same except clause
as stream errors, not independently of the primary result:
fetch_stock_transactions then returns None for the final text as well,
with the single Error log entry and without closing the stream.  A
summary failure therefore does invalidate the primary result; the UI
no-insights branch is never reached from a summary error, because no
final text survives to be displayed. -/
theorem C6_summary_error_containment :
    ∀ (model : GenModel) (evs : List Event) (out : StreamOutcome) (acl : Option String)
      (e : Event) (p : Part) (m : String),
      firstFinal? evs = some e →
      e.content.parts.head? = some p →
      p.text ≠ "" →
      model (summaryPrompt p.text) = Except.error m →
      StreamMain.fetch_stock_transactions model ⟨evs, out⟩ acl =
        ⟨⟨0, [summaryPrompt p.text]⟩, ⟨none, none, ["Error: " ++ m]⟩⟩ := by
  intro model evs out acl e p m hf hp ht hm
  rw [StreamMain.fetch_eq]
  simp [hf, hp, ht, hm]

/-- Witness for claim C6: a concrete turn with a failing summary model. -/
theorem C6_summary_error_containment_witness :
    StreamMain.fetch_stock_transactions errModel ⟨[evFinalData], .ends⟩ none =
      ⟨⟨0, [summaryPrompt "DATA"]⟩, ⟨none, none, ["Error: boom"]⟩⟩ :=
  C6_summary_error_containment errModel [evFinalData] .ends none evFinalData ⟨"DATA"⟩
    "boom" rfl rfl (by decide) rfl

/-- Counterexample to claim C6 as stated: with a summary model that
raises, the turn discards the final text DATA and returns None for it,
refuting the statement that the turn still returns the final text with
the summary merely absent. -/
theorem C6_final_text_discarded :
    (StreamMain.fetch_stock_transactions errModel
        ⟨[evFinalData], .ends⟩ none).ret.final_response = none ∧
    (StreamMain.fetch_stock_transactions errModel
        ⟨[evFinalData], .ends⟩ none).ret.final_response ≠ some "DATA" := by
  exact ⟨rfl, by decide⟩

/-- Claim C7 (confirmed, spec-modelled): a second create_or_get call with
the same identifier triple returns the same session as the first and
leaves the store unchanged (never a fresh session), and a state mutation
made through the store between the two calls is visible in the session
the second call returns. -/
theorem C7_create_or_get_idempotent :
    ∀ (store : SessionStore) (app user sid k v : String),
      create_or_get (create_or_get store app user sid).2 app user sid =
        create_or_get store app user sid ∧
      (create_or_get (setState (create_or_get store app user sid).2 app user sid k v)
          app user sid).1.state =
        (k, v) :: (create_or_get store app user sid).1.state := by
  intro store app user sid k v
  constructor
  · rw [create_or_get_of_find? _ _ _ _ _ (find?_create_or_get store app user sid)]
  · have h3 : (setState (create_or_get store app user sid).2 app user sid k v).sessions.find?
        (fun kv => decide (kv.1 = (app, user, sid))) =
        some ((app, user, sid),
          { (create_or_get store app user sid).1 with
            state := (k, v) :: (create_or_get store app user sid).1.state }) := by
      show ((create_or_get store app user sid).2.sessions.map _).find? _ = _
      rw [find?_map_upd, find?_create_or_get store app user sid]
      rfl
    rw [create_or_get_of_find? _ _ _ _ _ h3]

/-- Claim C8 (confirmed): the turn of fetch_stock_transactions makes at
most one summary call; when the first final event carries a non-empty
first-part text, the single prompt it sends is exactly the fixed
instruction template, a space, and that final text, and when the model
answers, the answer text is returned as the insights unmodified. -/
theorem C8_summary_call_contract :
    ∀ (model : GenModel) (evs : List Event) (out : StreamOutcome) (acl : Option String),
      (StreamMain.fetch_stock_transactions model ⟨evs, out⟩ acl).trace.summaryPrompts.length
        ≤ 1 ∧
      (∀ (e : Event) (p : Part),
        firstFinal? evs = some e → e.content.parts.head? = some p → p.text ≠ "" →
        (StreamMain.fetch_stock_transactions model ⟨evs, out⟩ acl).trace.summaryPrompts =
          [prompt_question ++ " " ++ p.text] ∧
        (∀ t, model (prompt_question ++ " " ++ p.text) = Except.ok t → acl = none →
          (StreamMain.fetch_stock_transactions model ⟨evs, out⟩ acl).ret.insights =
            some t)) := by
  intro model evs out acl
  constructor
  · rw [StreamMain.fetch_eq]
    cases hf : firstFinal? evs with
    | none => cases out <;> cases acl <;> simp
    | some e =>
      cases hp : e.content.parts.head? with
      | none => simp [hp]
      | some p =>
        by_cases ht : p.text = ""
        · cases acl <;> simp [hp, ht]
        · cases hm : model (summaryPrompt p.text) <;> cases acl <;> simp [hp, ht, hm]
  · intro e p hf hp ht
    constructor
    · rw [StreamMain.fetch_eq]
      simp only [hf, hp, if_neg ht, summaryPrompt]
      cases hm : model (prompt_question ++ " " ++ p.text) <;> cases acl <;> simp
    · intro t hmt hacl
      subst hacl
      rw [StreamMain.fetch_eq]
      simp only [hf, hp, if_neg ht, summaryPrompt, hmt]

/-- Witness for claim C8: a concrete turn whose summary prompt and
insights are evaluated. -/
theorem C8_summary_call_contract_witness :
    (StreamMain.fetch_stock_transactions okModel
        ⟨[evFinalData], .ends⟩ none).trace.summaryPrompts =
      [prompt_question ++ " " ++ "DATA"] ∧
    (StreamMain.fetch_stock_transactions okModel
        ⟨[evFinalData], .ends⟩ none).ret.insights = some "INSIGHTS" :=
  ⟨((C8_summary_call_contract okModel [evFinalData] .ends none).2 evFinalData ⟨"DATA"⟩
      rfl rfl (by decide)).1,
   ((C8_summary_call_contract okModel [evFinalData] .ends none).2 evFinalData ⟨"DATA"⟩
      rfl rfl (by decide)).2 "INSIGHTS" rfl rfl⟩

/-- Claim C9 (confirmed): when the turn of fetch_stock_transactions
completes without an exception, the recorded event log is the image under
str of the stream prefix through the first final event, which is an
order-preserving selection (a sublist) of the stream; and when a terminal
event exists, it is the last entry recorded. -/
theorem C9_log_emission_order :
    ∀ (model : GenModel) (evs : List Event) (out : StreamOutcome),
      StreamMain.raisesBeforeClose model evs out = false →
      (StreamMain.fetch_stock_transactions model ⟨evs, out⟩ none).ret.events =
        (takeThroughFinal evs).map Event.str ∧
      List.Sublist (takeThroughFinal evs) evs ∧
      (∀ e, firstFinal? evs = some e →
        ((StreamMain.fetch_stock_transactions model ⟨evs, out⟩ none).ret.events).getLast? =
          some e.str) := by
  intro model evs out hno
  have hev : (StreamMain.fetch_stock_transactions model ⟨evs, out⟩ none).ret.events =
      (takeThroughFinal evs).map Event.str := by
    rw [StreamMain.fetch_eq]
    cases hf : firstFinal? evs with
    | none =>
      cases out with
      | ends => simp
      | raises m => simp [StreamMain.raisesBeforeClose, hf] at hno
    | some e =>
      cases hp : e.content.parts.head? with
      | none => simp [StreamMain.raisesBeforeClose, hf, hp] at hno
      | some p =>
        by_cases ht : p.text = ""
        · simp [hp, ht]
        · cases hm : model (summaryPrompt p.text) with
          | error m => simp [StreamMain.raisesBeforeClose, hf, hp, ht, hm] at hno
          | ok t => simp [hp, ht, hm]
  refine ⟨hev, takeThroughFinal_sublist evs, fun e hf => ?_⟩
  rw [hev, List.getLast?_map, takeThroughFinal_getLast? evs e hf]
  rfl

/-- Witness for claim C9: a concrete exception-free turn with one
intermediate and one final event. -/
theorem C9_log_emission_order_witness :
    (StreamMain.fetch_stock_transactions okModel
        ⟨[evMid, evFinalData], .ends⟩ none).ret.events = ["E-mid", "E-final"] ∧
    ((StreamMain.fetch_stock_transactions okModel
        ⟨[evMid, evFinalData], .ends⟩ none).ret.events).getLast? = some "E-final" :=
  ⟨((C9_log_emission_order okModel [evMid, evFinalData] .ends (by decide)).1).trans rfl,
   (((C9_log_emission_order okModel [evMid, evFinalData] .ends
      (by decide)).2.2) evFinalData rfl).trans rfl⟩

/-- Claim C10 (confirmed): whenever an exception is raised during a turn
of fetch_stock_transactions (during stream consumption, final-text
extraction, the summary call, or the stream close), the function returns
(None, None, log) where the log is exactly the one entry Error followed
by the message, so every event recorded before the exception is discarded
from the returned log. -/
theorem C10_exception_discards_log :
    ∀ (model : GenModel) (evs : List Event) (out : StreamOutcome)
      (acl : Option String) (m : String),
      StreamMain.fetchExc model evs out acl = some m →
      (StreamMain.fetch_stock_transactions model ⟨evs, out⟩ acl).ret =
        ⟨none, none, ["Error: " ++ m]⟩ := by
  intro model evs out acl m hx
  rw [StreamMain.fetch_eq]
  cases hf : firstFinal? evs with
  | none =>
    cases out with
    | raises mm =>
      simp [StreamMain.fetchExc, hf] at hx
      subst hx
      rfl
    | ends =>
      cases acl with
      | some mm =>
        simp [StreamMain.fetchExc, hf] at hx
        subst hx
        rfl
      | none => simp [StreamMain.fetchExc, hf] at hx
  | some e =>
    cases hp : e.content.parts.head? with
    | none =>
      simp [StreamMain.fetchExc, hf, hp] at hx
      subst hx
      simp [hp]
    | some p =>
      by_cases ht : p.text = ""
      · cases acl with
        | some mm =>
          simp [StreamMain.fetchExc, hf, hp, ht] at hx
          subst hx
          simp [hp, ht]
        | none => simp [StreamMain.fetchExc, hf, hp, ht] at hx
      · cases hm : model (summaryPrompt p.text) with
        | error mm =>
          simp [StreamMain.fetchExc, hf, hp, ht, hm] at hx
          subst hx
          simp [hp, ht, hm]
        | ok t =>
          cases acl with
          | some mm =>
            simp [StreamMain.fetchExc, hf, hp, ht, hm] at hx
            subst hx
            simp [hp, ht, hm]
          | none => simp [StreamMain.fetchExc, hf, hp, ht, hm] at hx

/-- Witness for claim C10: a stream that yields one event and then
raises; the returned log is the single Error entry, the earlier recorded
event discarded. -/
theorem C10_exception_discards_log_witness :
    StreamMain.fetchExc okModel [evMid] (.raises "boom") none = some "boom" ∧
    (StreamMain.fetch_stock_transactions okModel
        ⟨[evMid], .raises "boom"⟩ none).ret = ⟨none, none, ["Error: boom"]⟩ :=
  ⟨rfl, C10_exception_discards_log okModel [evMid] (.raises "boom") none "boom" rfl⟩

end StockApp
